import Mathlib

/-!
Verification of the `parameters-bag` library (`src/source/supports/dynamic.ts`
and `src/source/supports/static.ts`) via a shallow embedding.

Embedding conventions:
* JavaScript runtime values are modelled by the inductive `JSVal`
  (undefined, null, booleans, integer numbers, strings); `truthy` is the
  JavaScript truthiness test and `jsOr` is the short-circuiting `||`
  operator, which returns its left operand when it is truthy and its right
  operand otherwise.
* Object/Map keys are modelled by `JSKey`: either a string or a symbol
  (identified by a natural number).
* A `Map` is modelled as an association list in insertion order:
  `mapSet` mirrors `Map.set` (update in place, else append),
  `mapGet` mirrors `Map.get`, `mapDelete` mirrors `Map.delete`.
* Listener callables (`IParameterCallable`) are opaque to the store; they
  are modelled by identifiers (`Nat`).  Operations that may invoke
  listeners return, next to the new state, a `Trace`: the list of
  (callable id, argument) invocations performed, in order.  The `signal`
  map of `DynamicParameter` is modelled as a function from keys to the
  insertion-ordered list of registered callable ids (a JS `Map` of `Set`s;
  `Map.entries` filtered to one key yields exactly that key's set).
-/

/-- A JavaScript runtime value, as far as this library observes it
(the library only branches on truthiness). Numbers are modelled as
integers. -/
inductive JSVal where
  | undef
  | nullV
  | boolV (b : Bool)
  | numV (n : Int)
  | strV (s : String)
deriving DecidableEq, Repr

/-- JavaScript truthiness: `undefined`, `null`, `false`, `0` and `""` are
falsy, everything else is truthy. -/
def truthy : JSVal → Bool
  | .undef => false
  | .nullV => false
  | .boolV b => b
  | .numV n => !(n == 0)
  | .strV s => !(s == "")

/-- JavaScript `a || b`: `a` when `a` is truthy, else `b`. -/
def jsOr (a b : JSVal) : JSVal :=
  if truthy a then a else b

/-- A JavaScript property key: a string or a symbol. -/
inductive JSKey where
  | str (s : String)
  | sym (id : Nat)
deriving DecidableEq, Repr

/-- Whether a key is a string key (`Object.entries` enumerates only
string-keyed own properties). -/
def JSKey.isStr : JSKey → Bool
  | .str _ => true
  | .sym _ => false

/-- `Map.set m k v`: replace the entry for `k` in place if present,
otherwise append it (JS `Map` keeps insertion order). -/
def mapSet {α : Type} (m : List (JSKey × α)) (k : JSKey) (v : α) : List (JSKey × α) :=
  match m with
  | [] => [(k, v)]
  | (k', v') :: rest => if k' = k then (k, v) :: rest else (k', v') :: mapSet rest k v

/-- `Map.get m k`: the value stored under `k`, if any. -/
def mapGet {α : Type} (m : List (JSKey × α)) (k : JSKey) : Option α :=
  match m with
  | [] => none
  | (k', v) :: rest => if k' = k then some v else mapGet rest k

/-- `Map.delete m k`: drop the entry for `k`, if present. -/
def mapDelete {α : Type} (m : List (JSKey × α)) (k : JSKey) : List (JSKey × α) :=
  match m with
  | [] => []
  | (k', v) :: rest => if k' = k then rest else (k', v) :: mapDelete rest k

/-- The `IParameter` record `{value, defaultValue, callback}` stored per
key.  An absent `defaultValue` is `JSVal.undef`; an absent `callback` is
`none`, a present one is identified by a `Nat`. -/
structure Param where
  value : JSVal
  defaultValue : JSVal
  callback : Option Nat
deriving DecidableEq, Repr

/-- Invocation trace: each element is (callable id, argument passed). -/
abbrev Trace := List (Nat × JSVal)

/-- The state of a `DynamicParameter` instance: the read-only `initial`
definition (an object, i.e. an insertion-ordered list of key/record
pairs), the live `stack` map, and the `signal` listener registry. -/
structure DPState where
  initial : List (JSKey × Param)
  stack : List (JSKey × Param)
  signal : JSKey → List Nat

namespace DynamicParameter

/-- `get(key)`: `data ? (data.value || data.defaultValue || undefined) : undefined`. -/
def get (s : DPState) (key : JSKey) : JSVal :=
  match mapGet s.stack key with
  | some data => jsOr (jsOr data.value data.defaultValue) JSVal.undef
  | none => JSVal.undef

/-- `has(key)`: membership test on `stack`. -/
def has (s : DPState) (key : JSKey) : Bool :=
  (mapGet s.stack key).isSome

/-- `listen(key, callback)`: add the callable to the key's listener set
(creating the set if absent; `Set.add` deduplicates and appends at the
end). -/
def listen (s : DPState) (key : JSKey) (callback : Nat) : DPState :=
  let cur := s.signal key
  let upd := if callback ∈ cur then cur else cur ++ [callback]
  { s with signal := fun k' => if k' = key then upd else s.signal k' }

/-- `dispatch(key)`: synchronously invoke every listener registered for
`key`, in insertion order, with `get(key)`.  Returns the invocation
trace. -/
def dispatch (s : DPState) (key : JSKey) : Trace :=
  (s.signal key).map (fun cb => (cb, get s key))

/-- `set(key, value, defaultValue?, callback?)`: store
`{value, defaultValue: defaultValue || value, callback}`, register the
callback via `listen` if supplied, then `dispatch(key)`. -/
def set (s : DPState) (key : JSKey) (value : JSVal) (defaultValue : JSVal)
    (callback : Option Nat) : DPState × Trace :=
  let s1 := { s with
    stack := mapSet s.stack key
      { value := value, defaultValue := jsOr defaultValue value, callback := callback } }
  let s2 := match callback with
    | some cb => listen s1 key cb
    | none => s1
  (s2, dispatch s2 key)

/-- `update(key, value)`: delegate to `set` only when `has(key)`. -/
def update (s : DPState) (key : JSKey) (value : JSVal) : DPState × Trace :=
  if has s key then set s key value JSVal.undef none else (s, [])

/-- `remove(key)`: `stack.delete(key)`. -/
def remove (s : DPState) (key : JSKey) : DPState :=
  { s with stack := mapDelete s.stack key }

/-- `clear()`: `stack.clear()`. -/
def clear (s : DPState) : DPState :=
  { s with stack := [] }

/-- The string-keyed entries of an object, in insertion order
(`Object.entries` skips symbol keys). -/
def objectEntries (o : List (JSKey × Param)) : List (JSKey × Param) :=
  o.filter (fun e => e.1.isStr)

/-- Replay a list of initial entries through `set`, threading the state
and concatenating the traces. -/
def initializeGo (s : DPState) : List (JSKey × Param) → DPState × Trace
  | [] => (s, [])
  | (key, data) :: rest =>
    let r := set s key data.value data.defaultValue data.callback
    let r2 := initializeGo r.1 rest
    (r2.1, r.2 ++ r2.2)

/-- `initialize()`: for each entry of `Object.entries(initial)`, invoke
`set(key, data.value, data.defaultValue, data.callback)`. -/
def initializeDyn (s : DPState) : DPState × Trace :=
  initializeGo s (objectEntries s.initial)

/-- The constructor: empty `stack` and `signal`, then `initialize()`. -/
def construct (initial : List (JSKey × Param)) : DPState × Trace :=
  initializeDyn { initial := initial, stack := [], signal := fun _ => [] }

/-- `reset()`: `stack.clear()` then `initialize()`. -/
def reset (s : DPState) : DPState × Trace :=
  initializeDyn { s with stack := [] }

/-- The `entries` getter: `accumulate[key] = value.value` for each stack
entry, i.e. the raw stored `value` field per key, in stack order. -/
def entries (s : DPState) : List (JSKey × JSVal) :=
  s.stack.map (fun e => (e.1, e.2.value))

end DynamicParameter

/-- The state of a `StaticParameter` instance: the read-only `initial`
sequence and the live `stack` set (insertion-ordered, deduplicated). -/
structure SPState where
  initial : List JSVal
  stack : List JSVal
deriving DecidableEq, Repr

namespace StaticParameter

/-- `add(value)`: `Set.add` — append if absent, no-op if present. -/
def add (s : SPState) (value : JSVal) : SPState :=
  if value ∈ s.stack then s else { s with stack := s.stack ++ [value] }

/-- `initialize()`: add every element of `initial` in order. -/
def initializeSet (s : SPState) : SPState :=
  s.initial.foldl add s

/-- The constructor: empty `stack`, then `initialize()`. -/
def construct (initial : List JSVal) : SPState :=
  initializeSet { initial := initial, stack := [] }

/-- The `value` getter: `[...stack.values()][0] || undefined` (indexing an
empty array yields `undefined`). -/
def value (s : SPState) : JSVal :=
  jsOr (s.stack.headD JSVal.undef) JSVal.undef

end StaticParameter

/-- A mutating store operation, as performed by caller code. -/
inductive DPOp where
  | setOp (key : JSKey) (value defaultValue : JSVal) (callback : Option Nat)
  | updateOp (key : JSKey) (value : JSVal)
  | removeOp (key : JSKey)
  | clearOp

/-- Whether an operation registers no listener. -/
def DPOp.noCallback : DPOp → Bool
  | .setOp _ _ _ cb => cb.isNone
  | _ => true

namespace DynamicParameter

/-- Apply one operation, dropping the trace. -/
def applyOp (s : DPState) : DPOp → DPState
  | .setOp k v d cb => (set s k v d cb).1
  | .updateOp k v => (update s k v).1
  | .removeOp k => remove s k
  | .clearOp => clear s

/-- Apply a sequence of operations in order. -/
def applyOps (s : DPState) (ops : List DPOp) : DPState :=
  ops.foldl applyOp s

end DynamicParameter

/-- Number of occurrences of `x` in `l`. -/
def countOcc (l : List Nat) (x : Nat) : Nat :=
  match l with
  | [] => 0
  | y :: ys => (if y = x then 1 else 0) + countOcc ys x

/-! ### A concrete sample store used by witnesses -/

/-- The spec §8 concrete scenario:
`{theme: {value:"light", defaultValue:"light"}, page: {value:1}}`. -/
def sampleInit : List (JSKey × Param) :=
  [(JSKey.str "theme", ⟨JSVal.strV "light", JSVal.strV "light", none⟩),
   (JSKey.str "page", ⟨JSVal.numV 1, JSVal.undef, none⟩)]

/-- The store constructed from `sampleInit`. -/
def sampleStore : DPState := (DynamicParameter.construct sampleInit).1

/-- A store holding a falsy value with a truthy default, to compare the
`entries` getter with `get`. -/
def rawStore : DPState :=
  (DynamicParameter.construct [(JSKey.str "a", ⟨JSVal.numV 0, JSVal.numV 5, none⟩)]).1

/-- A value set whose first element (in insertion order) is falsy. -/
def falsyFirstSet : SPState := StaticParameter.construct [JSVal.numV 0, JSVal.numV 7]


/-! ### Basic lemmas about the map model -/

theorem mapGet_mapSet_self {α : Type} (m : List (JSKey × α)) (k : JSKey) (v : α) :
    mapGet (mapSet m k v) k = some v := by
  induction m with
  | nil => simp [mapSet, mapGet]
  | cons e rest ih =>
    obtain ⟨k', v'⟩ := e
    by_cases h : k' = k
    · simp [mapSet, mapGet, h]
    · simp [mapSet, mapGet, h, ih]

theorem mapGet_mapSet_ne {α : Type} (m : List (JSKey × α)) (k k' : JSKey) (v : α)
    (h : k' ≠ k) : mapGet (mapSet m k v) k' = mapGet m k' := by
  induction m with
  | nil => simp [mapSet, mapGet, Ne.symm h]
  | cons e rest ih =>
    obtain ⟨k0, v0⟩ := e
    by_cases h0 : k0 = k
    · subst h0
      simp [mapSet, mapGet, Ne.symm h]
    · simp only [mapSet, if_neg h0, mapGet]
      by_cases h1 : k0 = k'
      · simp [h1]
      · simp [h1, ih]

theorem mapGet_map_value {α β : Type} (m : List (JSKey × α)) (f : α → β) (k : JSKey) :
    mapGet (m.map (fun e => (e.1, f e.2))) k = (mapGet m k).map f := by
  induction m with
  | nil => simp [mapGet]
  | cons e rest ih =>
    obtain ⟨k0, v0⟩ := e
    by_cases h : k0 = k
    · simp [mapGet, h]
    · simp [mapGet, h, ih]

namespace DynamicParameter

/-! ### Structural lemmas about the store operations -/

theorem set_stack (s : DPState) (k : JSKey) (v d : JSVal) (cb : Option Nat) :
    ((set s k v d cb).1).stack = mapSet s.stack k ⟨v, jsOr d v, cb⟩ := by
  cases cb <;> rfl

theorem set_initial (s : DPState) (k : JSKey) (v d : JSVal) (cb : Option Nat) :
    ((set s k v d cb).1).initial = s.initial := by
  cases cb <;> rfl

end DynamicParameter


/-! ### Claims -/

/-- C1: for every key `k`, `get(k)` returns the stored `value` if truthy,
else the stored `defaultValue` if truthy, else `undefined`; and for every
key not present in `stack`, `get(k)` is `undefined` and `has(k)` is
`false`. -/
theorem get_has_resolution_policy (s : DPState) (k : JSKey) :
    (∀ data, mapGet s.stack k = some data →
      DynamicParameter.get s k =
        (if truthy data.value then data.value
         else if truthy data.defaultValue then data.defaultValue
         else JSVal.undef))
    ∧ (mapGet s.stack k = none →
      DynamicParameter.get s k = JSVal.undef ∧ DynamicParameter.has s k = false) := by
  constructor
  · intro data h
    by_cases hv : truthy data.value <;> by_cases hd : truthy data.defaultValue <;>
      simp [DynamicParameter.get, h, jsOr, hv, hd]
  · intro h
    simp [DynamicParameter.get, DynamicParameter.has, h]

/-- Witness for C1 on the spec §8 sample store. -/
theorem get_has_resolution_policy_witness :
    DynamicParameter.get sampleStore (JSKey.str "theme") = JSVal.strV "light"
    ∧ DynamicParameter.get sampleStore (JSKey.str "missing") = JSVal.undef
    ∧ DynamicParameter.has sampleStore (JSKey.str "missing") = false := by
  refine ⟨?_, ?_, ?_⟩
  · exact ((get_has_resolution_policy sampleStore (JSKey.str "theme")).1
      ⟨JSVal.strV "light", JSVal.strV "light", none⟩ rfl).trans (by rfl)
  · exact ((get_has_resolution_policy sampleStore (JSKey.str "missing")).2 rfl).1
  · exact ((get_has_resolution_policy sampleStore (JSKey.str "missing")).2 rfl).2

/-- C2: `set(k, v)` stores `v` itself as the `defaultValue` whenever the
given `defaultValue` is not truthy (in particular when it is omitted,
i.e. `undefined`); concretely, after `set("page", 0)` with no explicit
default, `get("page")` is `undefined`, not `0`. -/
theorem set_default_fallback_to_value (s : DPState) (k : JSKey) (v d : JSVal)
    (cb : Option Nat) (h : truthy d = false) :
    mapGet ((DynamicParameter.set s k v d cb).1).stack k = some ⟨v, v, cb⟩
    ∧ ∀ t : DPState,
        DynamicParameter.get
          ((DynamicParameter.set t (JSKey.str "page") (JSVal.numV 0) JSVal.undef none).1)
          (JSKey.str "page") = JSVal.undef := by
  constructor
  · rw [DynamicParameter.set_stack, mapGet_mapSet_self]
    simp [jsOr, h]
  · intro t
    have hs := DynamicParameter.set_stack t (JSKey.str "page") (JSVal.numV 0)
      JSVal.undef none
    simp [DynamicParameter.get, hs, mapGet_mapSet_self, jsOr, truthy]

/-- Witness for C2: `set("page", 0)` on the sample store. -/
theorem set_default_fallback_to_value_witness :
    mapGet ((DynamicParameter.set sampleStore (JSKey.str "page") (JSVal.numV 0)
        JSVal.undef none).1).stack (JSKey.str "page")
      = some ⟨JSVal.numV 0, JSVal.numV 0, none⟩
    ∧ DynamicParameter.get
        ((DynamicParameter.set sampleStore (JSKey.str "page") (JSVal.numV 0)
          JSVal.undef none).1)
        (JSKey.str "page") = JSVal.undef := by
  have h := set_default_fallback_to_value sampleStore (JSKey.str "page")
    (JSVal.numV 0) JSVal.undef none rfl
  exact ⟨h.1, h.2 sampleStore⟩

/-- C5: `update(k, v)` on a key with `has(k) = false` is a silent no-op:
no dispatch (empty trace), state unchanged, and `has(k)` stays false. -/
theorem update_missing_key_noop (s : DPState) (k : JSKey) (v : JSVal)
    (h : DynamicParameter.has s k = false) :
    DynamicParameter.update s k v = (s, [])
    ∧ DynamicParameter.has ((DynamicParameter.update s k v).1) k = false := by
  have h1 : DynamicParameter.update s k v = (s, []) := by
    simp [DynamicParameter.update, h]
  exact ⟨h1, by rw [h1]; exact h⟩

/-- Witness for C5: `update("missing", 9)` on the sample store. -/
theorem update_missing_key_noop_witness :
    DynamicParameter.update sampleStore (JSKey.str "missing") (JSVal.numV 9)
      = (sampleStore, [])
    ∧ DynamicParameter.has
        ((DynamicParameter.update sampleStore (JSKey.str "missing") (JSVal.numV 9)).1)
        (JSKey.str "missing") = false :=
  update_missing_key_noop sampleStore (JSKey.str "missing") (JSVal.numV 9) rfl

/-- C9: `get` never returns a falsy defined value: its result is either
truthy or `undefined`, so `0`, `""`, `false` or `null` can never be
observed through `get`. -/
theorem get_never_falsy_defined (s : DPState) (k : JSKey) :
    truthy (DynamicParameter.get s k) = true
    ∨ DynamicParameter.get s k = JSVal.undef := by
  unfold DynamicParameter.get
  cases h : mapGet s.stack k with
  | none => right; rfl
  | some data =>
    by_cases hv : truthy data.value
    · left; simp [jsOr, hv]
    · by_cases hd : truthy data.defaultValue
      · left; simp [jsOr, hv, hd]
      · right; simp [jsOr, hv, hd]

/-! ### Occurrence counting for listener lists -/

theorem countOcc_append (l1 l2 : List Nat) (x : Nat) :
    countOcc (l1 ++ l2) x = countOcc l1 x + countOcc l2 x := by
  induction l1 with
  | nil => simp [countOcc]
  | cons y ys ih =>
    show (if y = x then 1 else 0) + countOcc (ys ++ l2) x
        = ((if y = x then 1 else 0) + countOcc ys x) + countOcc l2 x
    rw [ih]
    omega

theorem countOcc_eq_zero {l : List Nat} {x : Nat} (h : x ∉ l) : countOcc l x = 0 := by
  induction l with
  | nil => rfl
  | cons y ys ih =>
    rw [List.mem_cons] at h
    push_neg at h
    simp [countOcc, Ne.symm h.1, ih h.2]

theorem countOcc_pos_of_mem {l : List Nat} {x : Nat} (h : x ∈ l) :
    1 ≤ countOcc l x := by
  induction l with
  | nil => cases h
  | cons y ys ih =>
    rw [List.mem_cons] at h
    by_cases hy : y = x
    · simp only [countOcc, if_pos hy]
      omega
    · have hx : x ∈ ys := h.resolve_left (fun hx => hy hx.symm)
      simp only [countOcc, if_neg hy]
      have := ih hx
      omega

theorem filter_of_countOcc_zero {l : List Nat} {x : Nat} (h : countOcc l x = 0) :
    l.filter (fun y => decide (y = x)) = [] := by
  induction l with
  | nil => rfl
  | cons y ys ih =>
    by_cases hy : y = x
    · rw [countOcc, if_pos hy] at h
      omega
    · rw [countOcc, if_neg hy, Nat.zero_add] at h
      simp [List.filter_cons, hy, ih h]

theorem filter_of_countOcc_one {l : List Nat} {x : Nat} (h : countOcc l x = 1) :
    l.filter (fun y => decide (y = x)) = [x] := by
  induction l with
  | nil => simp [countOcc] at h
  | cons y ys ih =>
    by_cases hy : y = x
    · subst hy
      rw [countOcc, if_pos rfl] at h
      have h0 : countOcc ys y = 0 := by omega
      simp [List.filter_cons, filter_of_countOcc_zero h0]
    · rw [countOcc, if_neg hy, Nat.zero_add] at h
      simp [List.filter_cons, hy, ih h]

theorem filter_map_pair (l : List Nat) (val : JSVal) (x : Nat) :
    (l.map (fun c => (c, val))).filter (fun e => decide (e.1 = x))
      = (l.filter (fun c => decide (c = x))).map (fun c => (c, val)) := by
  induction l with
  | nil => rfl
  | cons y ys ih =>
    by_cases hy : y = x <;> simp [List.filter_cons, hy, ih]

namespace DynamicParameter

/-! ### Lemmas about the listener registry -/

theorem listen_signal_self (s : DPState) (k : JSKey) (cb : Nat) :
    (listen s k cb).signal k
      = (if cb ∈ s.signal k then s.signal k else s.signal k ++ [cb]) := by
  simp [listen]

theorem listen_signal_ne (s : DPState) (k : JSKey) (cb : Nat) (k' : JSKey)
    (h : k' ≠ k) : (listen s k cb).signal k' = s.signal k' := by
  simp [listen, h]

theorem self_mem_listen_signal (s : DPState) (k : JSKey) (cb : Nat) :
    cb ∈ (listen s k cb).signal k := by
  rw [listen_signal_self]
  by_cases hm : cb ∈ s.signal k
  · rw [if_pos hm]
    exact hm
  · rw [if_neg hm]
    exact List.mem_append_right _ (by simp)

theorem mem_listen_signal {s : DPState} {k' : JSKey} {c : Nat} (k : JSKey) (cb : Nat)
    (h : c ∈ s.signal k') : c ∈ (listen s k cb).signal k' := by
  by_cases hk : k' = k
  · subst hk
    rw [listen_signal_self]
    by_cases hm : cb ∈ s.signal k'
    · rw [if_pos hm]
      exact h
    · rw [if_neg hm]
      exact List.mem_append_left _ h
  · rw [listen_signal_ne _ _ _ _ hk]
    exact h

theorem set_signal_some (s : DPState) (k : JSKey) (v d : JSVal) (c : Nat) :
    ((set s k v d (some c)).1).signal = (listen s k c).signal := rfl

theorem set_signal_none (s : DPState) (k : JSKey) (v d : JSVal) :
    ((set s k v d none).1).signal = s.signal := rfl

theorem mem_set_signal {s : DPState} {k' : JSKey} {c : Nat} (k : JSKey) (v d : JSVal)
    (cb : Option Nat) (h : c ∈ s.signal k') : c ∈ ((set s k v d cb).1).signal k' := by
  cases cb with
  | none => exact h
  | some c0 =>
    rw [set_signal_some]
    exact mem_listen_signal k c0 h

theorem mem_initializeGo_signal {s : DPState} {k' : JSKey} {c : Nat}
    (l : List (JSKey × Param)) (h : c ∈ s.signal k') :
    c ∈ ((initializeGo s l).1).signal k' := by
  induction l generalizing s with
  | nil => exact h
  | cons e rest ih =>
    obtain ⟨k0, d0⟩ := e
    exact ih (mem_set_signal k0 d0.value d0.defaultValue d0.callback h)

theorem countOcc_listen_self (s : DPState) (k : JSKey) (cb : Nat)
    (h : countOcc (s.signal k) cb ≤ 1) :
    countOcc ((listen s k cb).signal k) cb = 1 := by
  rw [listen_signal_self]
  by_cases hm : cb ∈ s.signal k
  · rw [if_pos hm]
    have := countOcc_pos_of_mem hm
    omega
  · rw [if_neg hm, countOcc_append, countOcc_eq_zero hm]
    simp [countOcc]

end DynamicParameter

/-- C3: every `set(k, ...)` ends by dispatching for `k`: the trace is
exactly the post-state listener list for `k`, each invoked with the
resolved `get(k)` of the post state; a callback supplied to the same
`set` call is registered before the dispatch and hence also invoked; and
after `listen(k, cb)` then `set(k, v)`, `cb` is invoked exactly once with
`get(k)`. -/
theorem set_dispatches_to_listeners (s : DPState) (k : JSKey) (v d : JSVal)
    (c cb : Nat) (h : countOcc (s.signal k) cb ≤ 1) :
    (∀ cbo : Option Nat,
      (DynamicParameter.set s k v d cbo).2
        = (((DynamicParameter.set s k v d cbo).1).signal k).map
            (fun x => (x, DynamicParameter.get ((DynamicParameter.set s k v d cbo).1) k)))
    ∧ c ∈ ((DynamicParameter.set s k v d (some c)).1).signal k
    ∧ ((DynamicParameter.set (DynamicParameter.listen s k cb) k v JSVal.undef none).2).filter
          (fun e => decide (e.1 = cb))
        = [(cb, DynamicParameter.get
            ((DynamicParameter.set (DynamicParameter.listen s k cb) k v JSVal.undef none).1)
            k)] := by
  refine ⟨fun cbo => rfl, ?_, ?_⟩
  · rw [DynamicParameter.set_signal_some]
    exact DynamicParameter.self_mem_listen_signal s k c
  · have hcount : countOcc ((DynamicParameter.listen s k cb).signal k) cb = 1 :=
      DynamicParameter.countOcc_listen_self s k cb h
    calc ((DynamicParameter.set (DynamicParameter.listen s k cb) k v JSVal.undef none).2).filter
            (fun e => decide (e.1 = cb))
        = (((DynamicParameter.listen s k cb).signal k).map
            (fun x => (x, DynamicParameter.get
              ((DynamicParameter.set (DynamicParameter.listen s k cb) k v JSVal.undef none).1)
              k))).filter (fun e => decide (e.1 = cb)) := rfl
      _ = (((DynamicParameter.listen s k cb).signal k).filter
            (fun x => decide (x = cb))).map
            (fun x => (x, DynamicParameter.get
              ((DynamicParameter.set (DynamicParameter.listen s k cb) k v JSVal.undef none).1)
              k)) := filter_map_pair _ _ _
      _ = _ := by
            rw [filter_of_countOcc_one hcount]
            rfl

/-- Witness for C3 on the sample store: listener `7` on `"theme"` fires
exactly once when `"theme"` is re-set, and a callback passed to `set` is
registered. -/
theorem set_dispatches_to_listeners_witness :
    7 ∈ ((DynamicParameter.set sampleStore (JSKey.str "theme") (JSVal.strV "dark")
        JSVal.undef (some 7)).1).signal (JSKey.str "theme")
    ∧ ((DynamicParameter.set (DynamicParameter.listen sampleStore (JSKey.str "theme") 7)
          (JSKey.str "theme") (JSVal.strV "dark") JSVal.undef none).2).filter
          (fun e => decide (e.1 = 7))
        = [(7, DynamicParameter.get
            ((DynamicParameter.set (DynamicParameter.listen sampleStore (JSKey.str "theme") 7)
              (JSKey.str "theme") (JSVal.strV "dark") JSVal.undef none).1)
            (JSKey.str "theme"))] := by
  have h := set_dispatches_to_listeners sampleStore (JSKey.str "theme")
    (JSVal.strV "dark") JSVal.undef 7 7
    (by rw [show countOcc (sampleStore.signal (JSKey.str "theme")) 7 = 0 from rfl]; omega)
  exact ⟨h.2.1, h.2.2⟩

/-- C4: the listener registry (`signal`) is never shrunk by `remove`,
`clear` or `reset` (the first two leave it untouched, `reset` only adds);
and after `remove(k)` followed by a later `set(k, v)`, every previously
registered listener for `k` is still invoked. -/
theorem listener_ledger_survives (s : DPState) (k : JSKey) (v d : JSVal)
    (cb : Option Nat) :
    (DynamicParameter.remove s k).signal = s.signal
    ∧ (DynamicParameter.clear s).signal = s.signal
    ∧ (∀ (k' : JSKey) (c : Nat), c ∈ s.signal k' →
        c ∈ ((DynamicParameter.reset s).1).signal k')
    ∧ (∀ c : Nat, c ∈ s.signal k →
        (c, DynamicParameter.get
          ((DynamicParameter.set (DynamicParameter.remove s k) k v d cb).1) k)
        ∈ (DynamicParameter.set (DynamicParameter.remove s k) k v d cb).2) := by
  refine ⟨rfl, rfl, ?_, ?_⟩
  · intro k' c hc
    exact DynamicParameter.mem_initializeGo_signal _ hc
  · intro c hc
    have hmem : c ∈ ((DynamicParameter.set (DynamicParameter.remove s k) k v d cb).1).signal k :=
      DynamicParameter.mem_set_signal k v d cb hc
    show (c, DynamicParameter.get
        ((DynamicParameter.set (DynamicParameter.remove s k) k v d cb).1) k)
      ∈ (((DynamicParameter.set (DynamicParameter.remove s k) k v d cb).1).signal k).map
          (fun x => (x, DynamicParameter.get
            ((DynamicParameter.set (DynamicParameter.remove s k) k v d cb).1) k))
    exact List.mem_map_of_mem _ hmem

/-- Witness for C4: listener `7` on `"theme"` survives `remove` and fires
on the later `set`. -/
theorem listener_ledger_survives_witness :
    (7, DynamicParameter.get
      ((DynamicParameter.set
        (DynamicParameter.remove (DynamicParameter.listen sampleStore (JSKey.str "theme") 7)
          (JSKey.str "theme"))
        (JSKey.str "theme") (JSVal.strV "dark") JSVal.undef none).1)
      (JSKey.str "theme"))
    ∈ (DynamicParameter.set
        (DynamicParameter.remove (DynamicParameter.listen sampleStore (JSKey.str "theme") 7)
          (JSKey.str "theme"))
        (JSKey.str "theme") (JSVal.strV "dark") JSVal.undef none).2 := by
  have h := (listener_ledger_survives
    (DynamicParameter.listen sampleStore (JSKey.str "theme") 7)
    (JSKey.str "theme") (JSVal.strV "dark") JSVal.undef none).2.2.2 7
    (DynamicParameter.self_mem_listen_signal sampleStore (JSKey.str "theme") 7)
  exact h

namespace DynamicParameter

/-! ### Lemmas about `initialize`, `reset` and `construct` -/

theorem initializeGo_initial (l : List (JSKey × Param)) (s : DPState) :
    ((initializeGo s l).1).initial = s.initial := by
  induction l generalizing s with
  | nil => rfl
  | cons e rest ih =>
    obtain ⟨k0, d0⟩ := e
    exact (ih ((set s k0 d0.value d0.defaultValue d0.callback).1)).trans
      (set_initial s k0 d0.value d0.defaultValue d0.callback)

theorem initializeGo_stack_congr (l : List (JSKey × Param)) (s t : DPState)
    (h : s.stack = t.stack) :
    ((initializeGo s l).1).stack = ((initializeGo t l).1).stack := by
  induction l generalizing s t with
  | nil => exact h
  | cons e rest ih =>
    obtain ⟨k0, d0⟩ := e
    exact ih _ _ (by rw [set_stack, set_stack, h])

theorem get_congr (s t : DPState) (h : s.stack = t.stack) (k : JSKey) :
    get s k = get t k := by
  unfold get
  rw [h]

theorem construct_initial (init : List (JSKey × Param)) :
    ((construct init).1).initial = init :=
  initializeGo_initial _ _

theorem update_initial (s : DPState) (k : JSKey) (v : JSVal) :
    ((update s k v).1).initial = s.initial := by
  unfold update
  split
  · exact set_initial s k v JSVal.undef none
  · rfl

theorem applyOp_initial (s : DPState) (op : DPOp) :
    (applyOp s op).initial = s.initial := by
  cases op with
  | setOp k v d cb => exact set_initial s k v d cb
  | updateOp k v => exact update_initial s k v
  | removeOp k => rfl
  | clearOp => rfl

theorem applyOps_initial (ops : List DPOp) (s : DPState) :
    (applyOps s ops).initial = s.initial := by
  induction ops generalizing s with
  | nil => rfl
  | cons op rest ih => exact (ih (applyOp s op)).trans (applyOp_initial s op)

theorem reset_stack_eq (s : DPState) :
    ((reset s).1).stack = ((construct s.initial).1).stack :=
  initializeGo_stack_congr _ _ _ rfl

theorem initializeGo_stack_sym (l : List (JSKey × Param)) (s : DPState) (n : Nat)
    (hl : ∀ e ∈ l, e.1.isStr = true) :
    mapGet ((initializeGo s l).1).stack (JSKey.sym n) = mapGet s.stack (JSKey.sym n) := by
  induction l generalizing s with
  | nil => rfl
  | cons e rest ih =>
    obtain ⟨k0, d0⟩ := e
    have hk0 : k0.isStr = true := hl (k0, d0) (List.mem_cons_self _ _)
    have hrest : ∀ e ∈ rest, e.1.isStr = true := fun e he => hl e (List.mem_cons_of_mem _ he)
    have hne : (JSKey.sym n) ≠ k0 := by
      cases k0 with
      | str s0 => simp
      | sym m => simp [JSKey.isStr] at hk0
    show mapGet ((initializeGo (set s k0 d0.value d0.defaultValue d0.callback).1 rest).1).stack
        (JSKey.sym n) = mapGet s.stack (JSKey.sym n)
    rw [ih _ hrest, set_stack]
    exact mapGet_mapSet_ne _ _ _ _ hne

end DynamicParameter

/-- C6: for a store with no listeners registered (neither in the initial
definition nor via any operation), after arbitrary
`set`/`update`/`remove`/`clear` operations, one `reset()` restores
`get(k)`, for every key of the initial definition, to the resolved value
the definition produced at construction. -/
theorem reset_restores_initial_resolution (init : List (JSKey × Param))
    (ops : List DPOp) (k : JSKey)
    (hinit : ∀ e ∈ init, e.2.callback = none)
    (hops : ∀ op ∈ ops, DPOp.noCallback op = true)
    (hk : k ∈ init.map Prod.fst) :
    DynamicParameter.get
      ((DynamicParameter.reset
        (DynamicParameter.applyOps ((DynamicParameter.construct init).1) ops)).1) k
    = DynamicParameter.get ((DynamicParameter.construct init).1) k := by
  apply DynamicParameter.get_congr
  have h2 : (DynamicParameter.applyOps ((DynamicParameter.construct init).1) ops).initial
      = init := by
    rw [DynamicParameter.applyOps_initial]
    exact DynamicParameter.construct_initial init
  have h1 := DynamicParameter.reset_stack_eq
    (DynamicParameter.applyOps ((DynamicParameter.construct init).1) ops)
  rw [h2] at h1
  exact h1

/-- Witness for C6: remove, overwrite and clear the sample store, then
reset; `get("theme")` matches its value at construction. -/
theorem reset_restores_initial_resolution_witness :
    DynamicParameter.get
      ((DynamicParameter.reset
        (DynamicParameter.applyOps ((DynamicParameter.construct sampleInit).1)
          [DPOp.removeOp (JSKey.str "theme"),
           DPOp.setOp (JSKey.str "page") (JSVal.numV 5) JSVal.undef none,
           DPOp.clearOp])).1)
      (JSKey.str "theme")
    = DynamicParameter.get ((DynamicParameter.construct sampleInit).1)
        (JSKey.str "theme") :=
  reset_restores_initial_resolution sampleInit
    [DPOp.removeOp (JSKey.str "theme"),
     DPOp.setOp (JSKey.str "page") (JSVal.numV 5) JSVal.undef none,
     DPOp.clearOp]
    (JSKey.str "theme") (by decide) (by simp [DPOp.noCallback]) (by decide)

/-- C7 counterexample: `entries` does not contain the resolved value.  In
`rawStore` the key `"a"` is present, `entries` maps it to the raw stored
`0`, while the resolved `get("a")` is the default `5`. -/
theorem entries_resolved_value_cex :
    DynamicParameter.has rawStore (JSKey.str "a") = true
    ∧ mapGet (DynamicParameter.entries rawStore) (JSKey.str "a") = some (JSVal.numV 0)
    ∧ DynamicParameter.get rawStore (JSKey.str "a") = JSVal.numV 5
    ∧ JSVal.numV 0 ≠ JSVal.numV 5 :=
  ⟨rfl, rfl, rfl, by decide⟩

/-- C7 (amended): `entries` produces a plain key-to-value mapping
containing, for every key in `stack`, that key's raw stored `value` field
(which is what `clone()` passes to the new instance's constructor), not
the resolved `get` value. -/
theorem entries_yields_raw_value (s : DPState) (k : JSKey) (p : Param)
    (h : mapGet s.stack k = some p) :
    mapGet (DynamicParameter.entries s) k = some p.value := by
  have h1 := mapGet_map_value s.stack Param.value k
  exact h1.trans (by rw [h]; rfl)

/-- Witness for the amended C7 on `rawStore`. -/
theorem entries_yields_raw_value_witness :
    mapGet (DynamicParameter.entries rawStore) (JSKey.str "a")
      = some (JSVal.numV 0) :=
  entries_yields_raw_value rawStore (JSKey.str "a")
    ⟨JSVal.numV 0, JSVal.numV 5, none⟩ rfl

/-- C8 counterexample: for the non-empty set `{0, 7}`, the `value` getter
is `undefined`, not the first element `0`. -/
theorem value_first_element_cex :
    falsyFirstSet.stack = [JSVal.numV 0, JSVal.numV 7]
    ∧ StaticParameter.value falsyFirstSet = JSVal.undef
    ∧ JSVal.undef ≠ JSVal.numV 0 := by
  decide

/-- C8 (amended): the `value` getter returns the first element in
insertion order when the set is non-empty and that element is truthy; it
is `undefined` when the set is empty or when the first element is falsy. -/
theorem value_first_truthy_element (s : SPState) :
    (s.stack = [] → StaticParameter.value s = JSVal.undef)
    ∧ (∀ x xs, s.stack = x :: xs →
        StaticParameter.value s = (if truthy x then x else JSVal.undef)) := by
  constructor
  · intro h
    simp [StaticParameter.value, h, jsOr, truthy]
  · intro x xs h
    simp [StaticParameter.value, h, jsOr]

/-- Witness for the amended C8: the empty set and `falsyFirstSet`. -/
theorem value_first_truthy_element_witness :
    StaticParameter.value (StaticParameter.construct []) = JSVal.undef
    ∧ StaticParameter.value falsyFirstSet = JSVal.undef := by
  constructor
  · exact (value_first_truthy_element (StaticParameter.construct [])).1 rfl
  · exact ((value_first_truthy_element falsyFirstSet).2 (JSVal.numV 0)
      [JSVal.numV 7] rfl).trans (by decide)

/-- C10: construction replays only the string-keyed entries of `initial`
(`Object.entries` skips symbol keys): a symbol key present in the initial
definition is absent from `stack` after construction — `has` is false and
`get` is `undefined` for it. -/
theorem symbol_keys_not_replayed (init : List (JSKey × Param)) (n : Nat)
    (h : JSKey.sym n ∈ init.map Prod.fst) :
    DynamicParameter.has ((DynamicParameter.construct init).1) (JSKey.sym n) = false
    ∧ DynamicParameter.get ((DynamicParameter.construct init).1) (JSKey.sym n)
        = JSVal.undef := by
  have hstr : ∀ e ∈ DynamicParameter.objectEntries init, e.1.isStr = true := by
    intro e he
    exact (List.mem_filter.mp he).2
  have hget : mapGet ((DynamicParameter.construct init).1).stack (JSKey.sym n) = none :=
    (DynamicParameter.initializeGo_stack_sym
      (DynamicParameter.objectEntries init) _ n hstr).trans rfl
  constructor
  · simp [DynamicParameter.has, hget]
  · simp [DynamicParameter.get, hget]

/-- Witness for C10: an initial definition whose only entry sits under a
symbol key. -/
theorem symbol_keys_not_replayed_witness :
    DynamicParameter.has
      ((DynamicParameter.construct [(JSKey.sym 0, ⟨JSVal.numV 1, JSVal.undef, none⟩)]).1)
      (JSKey.sym 0) = false
    ∧ DynamicParameter.get
        ((DynamicParameter.construct [(JSKey.sym 0, ⟨JSVal.numV 1, JSVal.undef, none⟩)]).1)
        (JSKey.sym 0) = JSVal.undef :=
  symbol_keys_not_replayed [(JSKey.sym 0, ⟨JSVal.numV 1, JSVal.undef, none⟩)] 0
    (by decide)
